/-
  Verification of the newsflows-bsky-feed-generator ingestion/aggregation/
  feed/export logic against its natural-language specification.

  The TypeScript source is shallowly embedded: each Lean definition mirrors
  one source function (names kept where possible).  Timestamps are ISO-8601
  strings compared lexicographically, exactly as the source compares them
  (JS `>=` on strings, Postgres varchar comparison); both coincide with
  Lean's lexicographic `String` order on ASCII data.
-/
import Mathlib

namespace NewsFlows

/-- JS / Postgres string comparison (`<` on ISO timestamps and URIs):
    lexicographic by code unit, i.e. the lexicographic order on the
    underlying character list.  Lean's built-in `String.lt` is the same
    order, but its decision procedure does not reduce in the kernel, so the
    model compares the character lists directly. -/
def strLt (a b : String) : Prop := a.data < b.data

instance (a b : String) : Decidable (strLt a b) :=
  inferInstanceAs (Decidable (a.data < b.data))

/-! ## Ingestion scope and projector predicates (src/subscription.ts,
     src/util/ingestion-scope.ts) -/

/-- `isPostUri` from src/subscription.ts: tests the regex
    `^at:\/\/[^/]+\/app\.bsky\.feed\.post\/`. -/
def isPostUri (uri : String) : Bool :=
  match uri.data with
  | 'a' :: 't' :: ':' :: '/' :: '/' :: rest =>
    let seg := rest.takeWhile (fun c => c ≠ '/')
    let after := rest.dropWhile (fun c => c ≠ '/')
    seg ≠ [] && "/app.bsky.feed.post/".data.isPrefixOf after
  | _ => false

/-- `didFromAtUri` from src/util/ingestion-scope.ts: the capture group of
    `^at:\/\/([^/]+)\//` — the nonempty authority segment, which must be
    followed by a `/`. -/
def didFromAtUri (uri : Option String) : Option String :=
  match uri with
  | none => none
  | some u =>
    match u.data with
    | 'a' :: 't' :: ':' :: '/' :: '/' :: rest =>
      let seg := rest.takeWhile (fun c => c ≠ '/')
      let after := rest.dropWhile (fun c => c ≠ '/')
      if seg ≠ [] ∧ after ≠ [] then some (String.mk seg) else none
    | _ => none

/-- The scope record returned by `getIngestionScope`; the TS `Set`s are
    modelled as lists with membership. -/
structure IngestionScope where
  allowlistedAuthorDids : List String
  publisherDids : List String
  subscriberDids : List String
deriving Repr, DecidableEq

/-- The reply reference of a post record (`create.record.reply`), carrying
    the optional root and parent post URIs. -/
structure ReplyRef where
  rootUri : Option String
  parentUri : Option String
deriving Repr, DecidableEq

/-- `shouldStorePost` from src/subscription.ts (handleEvent closure).
    `scope = none` corresponds to the TS `scope` being `null`. -/
def shouldStorePost (scopedIngestion trackSubscriberActivity : Bool)
    (scope : Option IngestionScope) (author : String) (reply : Option ReplyRef) : Bool :=
  match scope with
  | none => true
  | some s =>
    if !scopedIngestion then true
    else if author ∈ s.allowlistedAuthorDids then true
    else
      let rootDid := didFromAtUri (reply.bind (·.rootUri))
      let parentDid := didFromAtUri (reply.bind (·.parentUri))
      if (match rootDid with | some d => d ∈ s.allowlistedAuthorDids | none => False : Bool) then true
      else if (match parentDid with | some d => d ∈ s.allowlistedAuthorDids | none => False : Bool) then true
      else if trackSubscriberActivity && author ∈ s.subscriberDids then true
      else false

/-- `shouldStoreEngagementFor` from src/subscription.ts (handleEvent
    closure): gate for like/repost events. -/
def shouldStoreEngagementFor (scopedIngestion trackSubscriberActivity
    restrictPublisherEngagementToSubscribers : Bool)
    (scope : Option IngestionScope) (author : String)
    (subjectUri : Option String) : Bool :=
  match subjectUri with
  | none => false
  | some u =>
    if !isPostUri u then false
    else
      match scope with
      | none => true
      | some s =>
        if !scopedIngestion then true
        else
          match didFromAtUri (some u) with
          | some subjectDid =>
            if subjectDid ∈ s.allowlistedAuthorDids then
              if restrictPublisherEngagementToSubscribers
                  && subjectDid ∈ s.publisherDids
                  && s.subscriberDids ≠ [] then
                author ∈ s.subscriberDids
              else true
            else if trackSubscriberActivity && author ∈ s.subscriberDids then true
            else false
          | none =>
            if trackSubscriberActivity && author ∈ s.subscriberDids then true
            else false

/-- The flag wiring of `FirehoseSubscription.handleEvent`:
    `trackSubscriberActivity` and `restrictPublisherEngagementToSubscribers`
    are conjoined with `scopedIngestion`, and the scope is fetched exactly
    when one of the three derived flags is set. -/
def storeEngagementDecision (scopedIngestion track0 restrict0 : Bool)
    (s : IngestionScope) (author : String) (subjectUri : Option String) : Bool :=
  let trackSubscriberActivity := scopedIngestion && track0
  let restrictPublisherEngagementToSubscribers := scopedIngestion && restrict0
  let scope : Option IngestionScope :=
    if scopedIngestion || trackSubscriberActivity || restrictPublisherEngagementToSubscribers
    then some s else none
  shouldStoreEngagementFor scopedIngestion trackSubscriberActivity
    restrictPublisherEngagementToSubscribers scope author subjectUri

/-- Same wiring for the post-storage decision. -/
def storePostDecision (scopedIngestion track0 restrict0 : Bool)
    (s : IngestionScope) (author : String) (reply : Option ReplyRef) : Bool :=
  let trackSubscriberActivity := scopedIngestion && track0
  let restrictPublisherEngagementToSubscribers := scopedIngestion && restrict0
  let scope : Option IngestionScope :=
    if scopedIngestion || trackSubscriberActivity || restrictPublisherEngagementToSubscribers
    then some s else none
  shouldStorePost scopedIngestion trackSubscriberActivity scope author reply

/-- `engagementsToDelete` from `FirehoseSubscription.handleEvent`
    (src/subscription.ts lines 498-502): repost deletes, then like deletes,
    then post deletes, concatenated. -/
def engagementsToDelete (repostDels likeDels postDels : List String) : List String :=
  repostDels ++ likeDels ++ postDels

/-! ## Engagement aggregator (src/util/update-engagement.ts) -/

/-- A row of the `post` table (src/db/migrations.ts, migrations 001/002).
    Only the columns the aggregator reads or writes are carried. -/
structure PostRow where
  uri : String
  author : String
  indexedAt : String
  rootUri : String
  likes_count : Nat
  repost_count : Nat
  comments_count : Nat
  quote_count : Nat
deriving Repr, DecidableEq

/-- A row of the `engagement` table (type 1 = repost, 2 = like, 3 = quote). -/
structure EngRow where
  uri : String
  subjectUri : String
  author : String
  type : Nat
  indexedAt : String
  createdAt : String
deriving Repr, DecidableEq

/-- The projector's bulk delete against the engagement store
    (src/subscription.ts lines 564-569):
    `DELETE FROM engagement WHERE uri IN engagementsToDelete`. -/
def applyEngagementDeletes (dels : List String) (rows : List EngRow) : List EngRow :=
  rows.filter (fun r => r.uri ∉ dels)

/-- The slice of database state `updateEngagement` touches. -/
structure EngagementDb where
  posts : List PostRow
  engagement : List EngRow
  subscriberDids : List String
  followsList : List String
deriving Repr, DecidableEq

/-- `IN_CLAUSE_CHUNK_SIZE` from src/util/update-engagement.ts. -/
def IN_CLAUSE_CHUNK_SIZE : Nat := 50000

/-- The UPDATE `batchSize` from src/util/update-engagement.ts. -/
def UPDATE_BATCH_SIZE : Nat := 5000

/-- `execInChunks` from src/util/update-engagement.ts: applies `fn` to
    successive `sz`-sized slices of `items` and concatenates the results.
    (The source's `for` loop advances by the constant 50000; a zero step is
    unreachable there, so `sz = 0` is mapped to the empty result.) -/
def execInChunks (sz : Nat) (items : List String)
    (fn : List String → List (String × Nat)) : List (String × Nat) :=
  if items = [] ∨ sz = 0 then []
  else fn (items.take sz) ++ execInChunks sz (items.drop sz) fn
termination_by items.length
decreasing_by
  simp only [not_or] at *
  cases items with
  | nil => simp_all
  | cons a l =>
    have hsz : sz ≠ 0 := by tauto
    simp [List.length_drop]
    omega

/-- One membership-filtered `GROUP BY` count query over a chunk:
    `SELECT subjectUri, count(*) ... WHERE subjectUri IN chunk ... GROUP BY
    subjectUri` returns one row per distinct chunk member that has at least
    one matching row.  SQL leaves the row order unspecified; the model emits
    chunk (first-occurrence) order — all downstream uses are per-key
    lookups, insensitive to this order. -/
def groupByCount (cnt : String → Nat) (chunk : List String) : List (String × Nat) :=
  chunk.dedup.filterMap (fun u => if cnt u = 0 then none else some (u, cnt u))

/-- Lookup in the JS `Map` built from an association list (later entries
    overwrite earlier ones), then `|| 0`: `map.get(uri) || 0`. -/
def mapGetD (l : List (String × Nat)) (u : String) : Nat :=
  match l.reverse.find? (fun p => p.1 = u) with
  | some p => p.2
  | none => 0

/-- The optional `engagement.author IN subscriberDids` restriction of the
    publisher-post query variants (`none` = unrestricted). -/
def subsOk (subsOnly : Option (List String)) (a : String) : Bool :=
  match subsOnly with
  | none => true
  | some subs => decide (a ∈ subs)

/-- Count of like rows (`type = 2`) on `u`; `subsOnly = some subs`
    additionally requires `engagement.author IN subs` (the publisher-post
    variant of the query). -/
def likeCnt (eng : List EngRow) (subsOnly : Option (List String)) (u : String) : Nat :=
  (eng.filter (fun e =>
    e.subjectUri = u ∧ e.type = 2 ∧ subsOk subsOnly e.author = true)).length

/-- Count of repost rows (`type = 1`) on `u`, with the same optional
    subscriber restriction. -/
def repostCnt (eng : List EngRow) (subsOnly : Option (List String)) (u : String) : Nat :=
  (eng.filter (fun e =>
    e.subjectUri = u ∧ e.type = 1 ∧ subsOk subsOnly e.author = true)).length

/-- Count of comment posts on `u`: posts whose `rootUri` equals `u` and is
    nonempty, with the same optional subscriber restriction on the comment
    author. -/
def commentCnt (posts : List PostRow) (subsOnly : Option (List String)) (u : String) : Nat :=
  (posts.filter (fun c =>
    c.rootUri = u ∧ c.rootUri ≠ "" ∧ subsOk subsOnly c.author = true)).length

/-- One batched `UPDATE post SET ... = CASE WHEN uri = ... THEN ... ELSE
    keep END WHERE uri IN batch`: rows whose uri is in the batch get the
    looked-up counts (`map.get(uri) || 0`); every other row — and the
    `quote_count` column of every row — is left unchanged. -/
def applyCaseUpdate (batch : List String)
    (likesMap repostsMap commentsMap : List (String × Nat))
    (posts : List PostRow) : List PostRow :=
  posts.map (fun p =>
    if p.uri ∈ batch then
      { p with
          likes_count := mapGetD likesMap p.uri
          repost_count := mapGetD repostsMap p.uri
          comments_count := mapGetD commentsMap p.uri }
    else p)

/-- The batching loop over `postUris` (`for (let i = 0; i < postUris.length;
    i += batchSize)`), issuing one CASE update per batch. -/
def updateInBatches (bs : Nat) (uris : List String)
    (likesMap repostsMap commentsMap : List (String × Nat))
    (posts : List PostRow) : List PostRow :=
  if uris = [] ∨ bs = 0 then posts
  else updateInBatches bs (uris.drop bs) likesMap repostsMap commentsMap
    (applyCaseUpdate (uris.take bs) likesMap repostsMap commentsMap posts)
termination_by uris.length
decreasing_by
  simp only [not_or] at *
  cases uris with
  | nil => simp_all
  | cons a l =>
    have hbs : bs ≠ 0 := by tauto
    simp [List.length_drop]
    omega

/-- `updateEngagement` from src/util/update-engagement.ts, parameterized by
    the two chunk sizes (the source fixes them to 50000 and 5000), the
    newsbot DID set and the rolling-window lower bound `timeLimit`.
    The six count queries, the three lookup maps, and the batched CASE
    update are mirrored step by step. -/
def updateEngagement (chunkSize batchSize : Nat) (newsbotDids : List String)
    (timeLimit : String) (db : EngagementDb) : EngagementDb :=
  if db.followsList = [] then db
  else
    let accountsToCheck := (db.followsList ++ newsbotDids).dedup
    let recentPosts := db.posts.filter
      (fun p => ¬ strLt p.indexedAt timeLimit ∧ p.author ∈ accountsToCheck)
    let postUris := recentPosts.map (·.uri)
    let publisherPostUris :=
      (recentPosts.filter (fun p => p.author ∈ newsbotDids)).map (·.uri)
    let otherPostUris :=
      (recentPosts.filter (fun p => p.author ∉ newsbotDids)).map (·.uri)
    if postUris = [] then db
    else
      let otherLikesResult :=
        if otherPostUris ≠ [] then
          execInChunks chunkSize otherPostUris (groupByCount (likeCnt db.engagement none))
        else []
      let publisherLikesResult :=
        if publisherPostUris ≠ [] ∧ db.subscriberDids ≠ [] then
          execInChunks chunkSize publisherPostUris
            (groupByCount (likeCnt db.engagement (some db.subscriberDids)))
        else []
      let likesMap := otherLikesResult ++ publisherLikesResult
      let otherRepostsResult :=
        if otherPostUris ≠ [] then
          execInChunks chunkSize otherPostUris (groupByCount (repostCnt db.engagement none))
        else []
      let publisherRepostsResult :=
        if publisherPostUris ≠ [] ∧ db.subscriberDids ≠ [] then
          execInChunks chunkSize publisherPostUris
            (groupByCount (repostCnt db.engagement (some db.subscriberDids)))
        else []
      let repostsMap := otherRepostsResult ++ publisherRepostsResult
      let otherCommentsResult :=
        if otherPostUris ≠ [] then
          execInChunks chunkSize otherPostUris (groupByCount (commentCnt db.posts none))
        else []
      let publisherCommentsResult :=
        if publisherPostUris ≠ [] ∧ db.subscriberDids ≠ [] then
          execInChunks chunkSize publisherPostUris
            (groupByCount (commentCnt db.posts (some db.subscriberDids)))
        else []
      let commentsMap := otherCommentsResult ++ publisherCommentsResult
      { db with
          posts := updateInBatches batchSize postUris likesMap repostsMap commentsMap db.posts }

/-- The production instantiation: chunk sizes 50000 / 5000 as in the source. -/
def updateEngagementProd (newsbotDids : List String) (timeLimit : String)
    (db : EngagementDb) : EngagementDb :=
  updateEngagement IN_CLAUSE_CHUNK_SIZE UPDATE_BATCH_SIZE newsbotDids timeLimit db

/-- The unchunked reference run: identical to `updateEngagement` except that
    every membership-filtered count query receives the whole URI list in one
    call and the final UPDATE is issued as a single statement. -/
def updateEngagementUnchunked (newsbotDids : List String)
    (timeLimit : String) (db : EngagementDb) : EngagementDb :=
  if db.followsList = [] then db
  else
    let accountsToCheck := (db.followsList ++ newsbotDids).dedup
    let recentPosts := db.posts.filter
      (fun p => ¬ strLt p.indexedAt timeLimit ∧ p.author ∈ accountsToCheck)
    let postUris := recentPosts.map (·.uri)
    let publisherPostUris :=
      (recentPosts.filter (fun p => p.author ∈ newsbotDids)).map (·.uri)
    let otherPostUris :=
      (recentPosts.filter (fun p => p.author ∉ newsbotDids)).map (·.uri)
    if postUris = [] then db
    else
      let otherLikesResult :=
        if otherPostUris ≠ [] then groupByCount (likeCnt db.engagement none) otherPostUris
        else []
      let publisherLikesResult :=
        if publisherPostUris ≠ [] ∧ db.subscriberDids ≠ [] then
          groupByCount (likeCnt db.engagement (some db.subscriberDids)) publisherPostUris
        else []
      let likesMap := otherLikesResult ++ publisherLikesResult
      let otherRepostsResult :=
        if otherPostUris ≠ [] then groupByCount (repostCnt db.engagement none) otherPostUris
        else []
      let publisherRepostsResult :=
        if publisherPostUris ≠ [] ∧ db.subscriberDids ≠ [] then
          groupByCount (repostCnt db.engagement (some db.subscriberDids)) publisherPostUris
        else []
      let repostsMap := otherRepostsResult ++ publisherRepostsResult
      let otherCommentsResult :=
        if otherPostUris ≠ [] then groupByCount (commentCnt db.posts none) otherPostUris
        else []
      let publisherCommentsResult :=
        if publisherPostUris ≠ [] ∧ db.subscriberDids ≠ [] then
          groupByCount (commentCnt db.posts (some db.subscriberDids)) publisherPostUris
        else []
      let commentsMap := otherCommentsResult ++ publisherCommentsResult
      { db with
          posts := applyCaseUpdate postUris likesMap repostsMap commentsMap db.posts }

/-! ## Retention trimmer (src/util/retention.ts) -/

/-- Retention configuration (`getRetentionConfig`), with the two day-window
    fields replaced by the cutoff timestamps they produce via `isoDaysAgo`
    (the subtraction from `Date.now()` is outside the model). -/
structure RetentionConfig where
  enabled : Bool
  deleteBatchSize : Nat
deriving Repr, DecidableEq

/-- One batched delete statement:
    `DELETE FROM t WHERE ctid IN (SELECT ctid FROM t WHERE indexedAt <
    cutoff LIMIT bs)` — removes up to `bs` rows older than the cutoff and
    returns how many were removed.  The inner SELECT has no ORDER BY, so
    which old rows fill the batch is unspecified; the model takes them in
    table order, one admissible execution. -/
def deleteOldBatch (idx : α → String) (cutoff : String) (bs : Nat)
    (rows : List α) : Nat × List α :=
  match bs, rows with
  | _, [] => (0, [])
  | 0, rows => (0, rows)
  | Nat.succ b, r :: rest =>
    if strLt (idx r) cutoff then
      let step := deleteOldBatch idx cutoff b rest
      (step.1 + 1, step.2)
    else
      let step := deleteOldBatch idx cutoff (Nat.succ b) rest
      (step.1, r :: step.2)

theorem deleteOldBatch_le (idx : α → String) (cutoff : String) (bs : Nat)
    (rows : List α) : (deleteOldBatch idx cutoff bs rows).1 ≤ bs := by
  induction rows generalizing bs with
  | nil => cases bs <;> simp [deleteOldBatch]
  | cons r rest ih =>
    cases bs with
    | zero => simp [deleteOldBatch]
    | succ b =>
      by_cases h : strLt (idx r) cutoff
      · simpa [deleteOldBatch, h] using ih b
      · simpa [deleteOldBatch, h] using ih (b + 1)

theorem deleteOldBatch_length (idx : α → String) (cutoff : String) (bs : Nat)
    (rows : List α) :
    (deleteOldBatch idx cutoff bs rows).2.length + (deleteOldBatch idx cutoff bs rows).1
      = rows.length := by
  induction rows generalizing bs with
  | nil => cases bs <;> simp [deleteOldBatch]
  | cons r rest ih =>
    cases bs with
    | zero => simp [deleteOldBatch]
    | succ b =>
      by_cases h : strLt (idx r) cutoff
      · simp only [deleteOldBatch, h, if_pos, List.length_cons]
        have := ih b
        omega
      · simp only [deleteOldBatch, h, if_neg, not_false_iff, List.length_cons]
        have := ih (Nat.succ b)
        omega

/-- The per-table `while (true)` delete loop of `runRetentionOnce`: repeat
    batched deletes until a batch removes fewer rows than the batch size.
    (With `bs = 0` the source loop never terminates; the model returns the
    untouched table there, and every theorem below assumes `0 < bs`.) -/
def retentionLoop (idx : α → String) (cutoff : String) (bs : Nat)
    (rows : List α) : List α :=
  if _h : (deleteOldBatch idx cutoff bs rows).1 < bs then
    (deleteOldBatch idx cutoff bs rows).2
  else if _hbs : 0 < bs then
    retentionLoop idx cutoff bs (deleteOldBatch idx cutoff bs rows).2
  else (deleteOldBatch idx cutoff bs rows).2
termination_by rows.length
decreasing_by
  have hlen := deleteOldBatch_length idx cutoff bs rows
  omega

/-- `runRetentionOnce` from src/util/retention.ts: when enabled, trim the
    engagement table to the engagement cutoff and the post table to the post
    cutoff, each by the batched loop; when disabled, do nothing. -/
def runRetentionOnce (cfg : RetentionConfig)
    (engagementCutoff postCutoff : String)
    (eng : List EngRow) (posts : List PostRow) : List EngRow × List PostRow :=
  if !cfg.enabled then (eng, posts)
  else
    (retentionLoop (·.indexedAt) engagementCutoff cfg.deleteBatchSize eng,
     retentionLoop (·.indexedAt) postCutoff cfg.deleteBatchSize posts)

/-! ## Feed ranking engine (src/algos/feed-builder.ts) -/

/-- The merge loop of `buildFeed` (lines 79-95): repeatedly take one
    publisher post and two network ("other") posts until both lists are
    exhausted; an exhausted list simply contributes nothing. -/
def mergeFeedLists (pubs others : List String) : List String :=
  if pubs = [] ∧ others = [] then []
  else pubs.take 1 ++ others.take 2 ++ mergeFeedLists (pubs.drop 1) (others.drop 2)
termination_by pubs.length + others.length
decreasing_by
  rcases pubs with _ | ⟨p, ps⟩ <;> rcases others with _ | ⟨o, os⟩ <;>
    simp_all [List.length_drop] <;> omega

/-- `buildFeed` from src/algos/feed-builder.ts as a pure function of the
    request limit, the parsed cursor offset, and the two sub-query result
    lists.  The sub-queries themselves run `LIMIT limit` / `LIMIT 2*limit`
    with `OFFSET cursorOffset` against the database and are abstracted as
    the input lists; `limit = ⌊params.limit / 3⌋` (line 39).  Returns the
    interleaved skeleton feed and the optional next cursor
    `(cursorOffset + limit*2).toString()` (lines 97-103). -/
def buildFeed (paramsLimit : Nat) (cursorOffset : Nat)
    (publisherPosts otherPosts : List String) : List String × Option String :=
  let limit := paramsLimit / 3
  let feed := mergeFeedLists publisherPosts otherPosts
  let totalPostsReturned := publisherPosts.length + otherPosts.length
  let cursor : Option String :=
    if totalPostsReturned > 0 then some (toString (cursorOffset + limit * 2)) else none
  (feed, cursor)

/-! ## Compliance export engine (src/methods/monitor.ts) -/

/-- One row of the unioned engagement timeline (the `base`/`enriched` CTEs
    of `handleEngagementExport`): engagement rows mapped through
    `CASE e.type WHEN 1 THEN 'repost' WHEN 2 THEN 'like' WHEN 3 THEN 'quote'`
    unioned with comment-shaped posts (`type = 'comment'`). -/
structure ExportRow where
  type : String
  event_uri : String
  subject_uri : String
  author_did : String
  created_at : String
deriving Repr, DecidableEq

/-- The `type_rank` CASE expression of the `enriched` CTE:
    like 1, repost 2, comment 3, quote 4, anything else 0. -/
def typeRank (t : String) : Nat :=
  if t = "like" then 1
  else if t = "repost" then 2
  else if t = "comment" then 3
  else if t = "quote" then 4
  else 0

/-- The better of two rows under the dedupe order
    `ORDER BY created_at DESC, type_rank DESC` (the first argument wins
    exact ties, matching an unspecified SQL choice). -/
def betterRow (a b : ExportRow) : ExportRow :=
  if strLt a.created_at b.created_at then b
  else if strLt b.created_at a.created_at then a
  else if typeRank a.type < typeRank b.type then b
  else a

/-- One step of the scan for the winning row. -/
def bestRowStep (acc : Option ExportRow) (r : ExportRow) : Option ExportRow :=
  match acc with
  | none => some r
  | some b => some (betterRow b r)

/-- The winning row of a candidate list (none when the list is empty). -/
def bestRowFor (l : List ExportRow) : Option ExportRow :=
  l.foldl bestRowStep none

/-- The `deduped` CTE: `SELECT DISTINCT ON (event_uri) ... ORDER BY
    event_uri, created_at DESC, type_rank DESC` — one output row per
    distinct `event_uri`, the row maximal by (created_at, type_rank).
    Output row order is modelled as first occurrence of each `event_uri`;
    the SQL statement orders by `event_uri` instead, but every property
    proved below is per-`event_uri` and order-insensitive. -/
def dedupeByEventUri (rows : List ExportRow) : List ExportRow :=
  (rows.map (·.event_uri)).dedup.filterMap
    (fun u => bestRowFor (rows.filter (fun r => r.event_uri = u)))

/-- The complete filter set of an export request (`EngagementFilters`). -/
structure EngagementFilters where
  since : String
  untilTs : String  -- the source field is named `until`, a Lean keyword
  scope : String
  limit : Nat
  types : List String
  subscriberDid : Option String
  includeOtherSubscriberActivity : Bool
deriving Repr, DecidableEq

/-- JSON literal for an optional string (`null` when absent).  The inputs
    (ISO timestamps, DIDs, scope and type enums) contain no characters that
    JSON.stringify would escape. -/
def jsonStr (s : Option String) : String :=
  match s with
  | none => "null"
  | some v => "\"" ++ v ++ "\""

/-- JSON literal for a boolean. -/
def jsonBool (b : Bool) : String :=
  if b then "true" else "false"

/-- JSON array literal of strings. -/
def jsonStrList (l : List String) : String :=
  "[" ++ String.intercalate "," (l.map (fun s => jsonStr (some s))) ++ "]"

/-- Ascending insertion of a string into a sorted list (helper for
    `sortStrings`). -/
def insertStr (a : String) : List String → List String
  | [] => [a]
  | b :: t => if strLt b a then b :: insertStr a t else a :: b :: t

/-- Ascending lexicographic sort — the order produced by JS
    `Array.prototype.sort()` on strings (insertion sort; only the resulting
    order matters). -/
def sortStrings : List String → List String
  | [] => []
  | a :: t => insertStr a (sortStrings t)

/-- `JSON.stringify` of the normalized filter object built by
    `buildFilterSignature` (src/methods/monitor.ts lines 842-853): fixed key
    order, `types` sorted ascending as by JS `Array.prototype.sort`. -/
def normalizedFilterJson (f : EngagementFilters) : String :=
  "\x7b\"since\":" ++ jsonStr (some f.since) ++
  ",\"until\":" ++ jsonStr (some f.untilTs) ++
  ",\"scope\":" ++ jsonStr (some f.scope) ++
  ",\"limit\":" ++ toString f.limit ++
  ",\"types\":" ++ jsonStrList (sortStrings f.types) ++
  ",\"subscriber_did\":" ++ jsonStr f.subscriberDid ++
  ",\"include_other_subscriber_activity\":" ++ jsonBool f.includeOtherSubscriberActivity ++
  "\x7d"

/-- `buildFilterSignature`: the hex SHA-256 digest of the normalized filter
    JSON.  The digest function is abstracted as `hash`; every theorem is
    stated for an arbitrary `hash`, with collision-freedom at the compared
    points supplied explicitly where needed. -/
def buildFilterSignature (hash : String → String) (f : EngagementFilters) : String :=
  hash (normalizedFilterJson f)

/-- A decoded pagination cursor (`EngagementCursor`). -/
structure EngagementCursor where
  created_at : String
  event_uri : String
  filter_sig : String
deriving Repr, DecidableEq

/-- The outcome of an export request: either an HTTP error response
    (`res.status(status).json({error, message})`) or a result page. -/
inductive ExportOutcome where
  | httpError (status : Nat) (message : String)
  | page (events : List ExportRow) (nextCursor : Option EngagementCursor)
deriving Repr, DecidableEq

/-- The cursor-validation and page-assembly core of
    `handleEngagementExport` (src/methods/monitor.ts).  A supplied cursor
    is decoded and its `filter_sig` compared against the current request's
    `buildFilterSignature`; on mismatch the handler throws
    `'cursor does not match request filters'`, caught as HTTP 400
    (lines 1260-1276).  Otherwise the page query runs (abstracted as
    `queryRows`, already filtered/deduped/sorted, produced with
    `LIMIT limit+1`); if it yields more than `limit` rows the page is
    truncated to `limit` and a `next_cursor` embedding the current
    `filter_sig` is issued from the last returned row (lines 1403-1415). -/
def handleEngagementExport (hash : String → String) (filters : EngagementFilters)
    (cursor : Option EngagementCursor) (queryRows : List ExportRow) : ExportOutcome :=
  let filterSig := buildFilterSignature hash filters
  match cursor with
  | some c =>
    if c.filter_sig ≠ filterSig then
      ExportOutcome.httpError 400 "cursor does not match request filters"
    else
      exportPage filterSig filters.limit queryRows
  | none => exportPage filterSig filters.limit queryRows
where
  /-- Page truncation and next-cursor issuance (lines 1403-1415). -/
  exportPage (filterSig : String) (limit : Nat) (rows : List ExportRow) : ExportOutcome :=
    if rows.length > limit then
      let events := rows.take limit
      match events.getLast? with
      | some last =>
        ExportOutcome.page events
          (some { created_at := last.created_at
                  event_uri := last.event_uri
                  filter_sig := filterSig })
      | none => ExportOutcome.page events none
    else ExportOutcome.page rows none

/-! ## Theorems -/

theorem mergeFeedLists_nil_right : ∀ (pubs : List String), mergeFeedLists pubs [] = pubs
  | [] => by unfold mergeFeedLists; simp
  | p :: ps => by
    unfold mergeFeedLists
    simp [mergeFeedLists_nil_right ps]

theorem mergeFeedLists_nil_left : ∀ (others : List String), mergeFeedLists [] others = others
  | [] => by unfold mergeFeedLists; simp
  | [o] => by
    unfold mergeFeedLists
    simp [mergeFeedLists_nil_left []]
  | o1 :: o2 :: os => by
    unfold mergeFeedLists
    simp [mergeFeedLists_nil_left os]

/-- **C2.** A `buildFeed` request with `params.limit = 9` runs the publisher
    sub-query with `limit = ⌊9/3⌋ = 3` and the network sub-query with
    `2*limit = 6`; when both return full pages (exactly 3 and 6 rows — "at
    least" 3 and 6 candidates), the interleave loop emits the nine entries
    in 1:2:2:1:2:2:1:2:2 publisher:network order — 3 publisher-origin and 6
    network-origin entries; and whenever one sub-query list is exhausted the
    remaining feed positions are filled from the other list in its order
    (`mergeFeedLists` with one empty side returns the other side verbatim,
    which is exactly what the loop's guarded pushes do). -/
theorem C2_feed_interleave :
    (∀ (c : Nat) (p1 p2 p3 o1 o2 o3 o4 o5 o6 : String),
      (buildFeed 9 c [p1, p2, p3] [o1, o2, o3, o4, o5, o6]).1
        = [p1, o1, o2, p2, o3, o4, p3, o5, o6])
    ∧ (∀ pubs : List String, mergeFeedLists pubs [] = pubs)
    ∧ (∀ others : List String, mergeFeedLists [] others = others) := by
  refine ⟨?_, mergeFeedLists_nil_right, mergeFeedLists_nil_left⟩
  intro c p1 p2 p3 o1 o2 o3 o4 o5 o6
  show mergeFeedLists [p1, p2, p3] [o1, o2, o3, o4, o5, o6] = _
  unfold mergeFeedLists
  simp
  unfold mergeFeedLists
  simp
  unfold mergeFeedLists
  simp
  unfold mergeFeedLists
  simp

/-- **C8.** The next-page cursor of `buildFeed` is the numeric string
    `cursorOffset + limit * 2`, where `limit` is the code's per-stream limit
    `⌊params.limit / 3⌋` (the variable named `limit` in feed-builder.ts, the
    quantity the spec's formula `previousOffset + 2*limit` denotes); it is
    present exactly when the two sub-queries returned at least one post in
    total, and absent when both returned zero posts. -/
theorem C8_feed_cursor (paramsLimit cursorOffset : Nat)
    (publisherPosts otherPosts : List String) :
    ((buildFeed paramsLimit cursorOffset publisherPosts otherPosts).2
        = some (toString (cursorOffset + paramsLimit / 3 * 2))
      ↔ (publisherPosts ≠ [] ∨ otherPosts ≠ []))
    ∧ ((buildFeed paramsLimit cursorOffset publisherPosts otherPosts).2 = none
      ↔ (publisherPosts = [] ∧ otherPosts = [])) := by
  have hlen : 0 < publisherPosts.length + otherPosts.length
      ↔ (publisherPosts ≠ [] ∨ otherPosts ≠ []) := by
    rcases publisherPosts with _ | ⟨p, ps⟩ <;> rcases otherPosts with _ | ⟨o, os⟩ <;>
      simp [Nat.succ_add]
  constructor
  · simp only [buildFeed]
    rcases Decidable.em (0 < publisherPosts.length + otherPosts.length) with h | h
    · simp [h, hlen.mp h]
    · have := hlen.not.mp h
      push_neg at this
      simp [h, this.1, this.2]
  · simp only [buildFeed]
    rcases Decidable.em (0 < publisherPosts.length + otherPosts.length) with h | h
    · have h' := hlen.mp h
      constructor
      · intro hc; simp [h] at hc
      · intro hc; rcases h' with h' | h' <;> simp [hc.1, hc.2] at h'
    · have := hlen.not.mp h
      push_neg at this
      simp [h, this.1, this.2]

/-- **C10.** Every URI in a commit batch's post-delete list is part of
    `engagementsToDelete` and is therefore applied as a delete against the
    engagement store: after the projector's bulk engagement delete no
    engagement row keyed by a deleted post URI survives — in particular the
    quote-type engagement row stored under a deleted quote post's own URI is
    removed — while every row whose URI is in none of the delete lists
    (e.g. rows for URIs other than a deleted non-quote post) is kept
    unchanged. -/
theorem C10_post_delete_cascades (repostDels likeDels postDels : List String)
    (rows : List EngRow) :
    (∀ u ∈ postDels, u ∈ engagementsToDelete repostDels likeDels postDels)
    ∧ (∀ r ∈ applyEngagementDeletes
          (engagementsToDelete repostDels likeDels postDels) rows,
        r.uri ∉ postDels)
    ∧ (∀ r ∈ rows,
        r.uri ∉ engagementsToDelete repostDels likeDels postDels →
          r ∈ applyEngagementDeletes
            (engagementsToDelete repostDels likeDels postDels) rows) := by
  refine ⟨?_, ?_, ?_⟩
  · intro u hu
    simp [engagementsToDelete, hu]
  · intro r hr hmem
    have : r.uri ∉ engagementsToDelete repostDels likeDels postDels := by
      have := List.of_mem_filter hr
      simpa using this
    exact this (by simp [engagementsToDelete, hmem])
  · intro r hr hnot
    refine List.mem_filter.mpr ⟨hr, ?_⟩
    simpa using hnot

/-- **C10 witness.** Deleting quote post `q` (whose quote engagement row is
    stored under the same URI `q`) removes that row and keeps the row for an
    unrelated URI. -/
theorem C10_witness :
    "at://b/app.bsky.feed.post/q"
        ∈ engagementsToDelete [] [] ["at://b/app.bsky.feed.post/q"]
    ∧ ({ uri := "at://c/app.bsky.feed.post/k", subjectUri := "s", author := "c",
         type := 2, indexedAt := "1", createdAt := "1" } : EngRow)
        ∈ applyEngagementDeletes (engagementsToDelete [] [] ["at://b/app.bsky.feed.post/q"])
          [{ uri := "at://b/app.bsky.feed.post/q",
             subjectUri := "at://a/app.bsky.feed.post/s", author := "b",
             type := 3, indexedAt := "1", createdAt := "1" },
           { uri := "at://c/app.bsky.feed.post/k", subjectUri := "s", author := "c",
             type := 2, indexedAt := "1", createdAt := "1" }]
    ∧ applyEngagementDeletes (engagementsToDelete [] [] ["at://b/app.bsky.feed.post/q"])
          [{ uri := "at://b/app.bsky.feed.post/q",
             subjectUri := "at://a/app.bsky.feed.post/s", author := "b",
             type := 3, indexedAt := "1", createdAt := "1" },
           { uri := "at://c/app.bsky.feed.post/k", subjectUri := "s", author := "c",
             type := 2, indexedAt := "1", createdAt := "1" }]
        = [{ uri := "at://c/app.bsky.feed.post/k", subjectUri := "s", author := "c",
             type := 2, indexedAt := "1", createdAt := "1" }] := by
  refine ⟨?_, ?_, by decide⟩
  · exact (C10_post_delete_cascades [] [] ["at://b/app.bsky.feed.post/q"] []).1
      "at://b/app.bsky.feed.post/q" (by decide)
  · exact (C10_post_delete_cascades [] [] ["at://b/app.bsky.feed.post/q"] _).2.2
      _ (by decide) (by decide)

theorem deleteOldBatch_keeps (idx : α → String) (cutoff : String) (bs : Nat)
    (rows : List α) :
    (deleteOldBatch idx cutoff bs rows).2.filter (fun r => ¬ strLt (idx r) cutoff)
      = rows.filter (fun r => ¬ strLt (idx r) cutoff) := by
  induction rows generalizing bs with
  | nil => cases bs <;> simp [deleteOldBatch]
  | cons r rest ih =>
    cases bs with
    | zero => simp [deleteOldBatch]
    | succ b =>
      by_cases h : strLt (idx r) cutoff
      · simp only [deleteOldBatch, h, if_pos]
        rw [List.filter_cons_of_neg (by simpa using h)]
        exact ih b
      · simp only [deleteOldBatch, h, if_neg, not_false_iff]
        rw [List.filter_cons_of_pos (by simpa using h),
            List.filter_cons_of_pos (by simpa using h)]
        rw [ih (Nat.succ b)]

theorem deleteOldBatch_exhausted (idx : α → String) (cutoff : String) (bs : Nat)
    (rows : List α) (h : (deleteOldBatch idx cutoff bs rows).1 < bs) :
    (deleteOldBatch idx cutoff bs rows).2
      = rows.filter (fun r => ¬ strLt (idx r) cutoff) := by
  induction rows generalizing bs with
  | nil => cases bs <;> simp [deleteOldBatch]
  | cons r rest ih =>
    cases bs with
    | zero => omega
    | succ b =>
      by_cases hr : strLt (idx r) cutoff
      · simp only [deleteOldBatch, hr, if_pos] at h ⊢
        have hb : (deleteOldBatch idx cutoff b rest).1 < b := by omega
        rw [List.filter_cons_of_neg (by simpa using hr)]
        exact ih b hb
      · simp only [deleteOldBatch, hr, if_neg, not_false_iff] at h ⊢
        rw [List.filter_cons_of_pos (by simpa using hr)]
        rw [ih (Nat.succ b) h]

theorem retentionLoop_eq_filter (idx : α → String) (cutoff : String) (bs : Nat)
    (hbs : 0 < bs) (rows : List α) :
    retentionLoop idx cutoff bs rows
      = rows.filter (fun r => ¬ strLt (idx r) cutoff) := by
  have H : ∀ (n : Nat) (rows : List α), rows.length = n →
      retentionLoop idx cutoff bs rows
        = rows.filter (fun r => ¬ strLt (idx r) cutoff) := by
    intro n
    induction n using Nat.strong_induction_on with
    | _ n ih =>
      intro rows hn
      unfold retentionLoop
      by_cases h : (deleteOldBatch idx cutoff bs rows).1 < bs
      · simp only [h, dif_pos]
        exact deleteOldBatch_exhausted idx cutoff bs rows h
      · simp only [h, dif_neg, not_false_iff, hbs, dif_pos]
        have hlen := deleteOldBatch_length idx cutoff bs rows
        rw [ih ((deleteOldBatch idx cutoff bs rows).2.length) (by omega) _ rfl,
            deleteOldBatch_keeps]
  exact H rows.length rows rfl

/-- **C9.** A retention run deletes nothing when retention is disabled; when
    enabled (and the batch size is positive, as any real configuration is —
    with batch size 0 the source loop never returns), the run leaves the
    engagement table holding exactly the rows indexed at or after the
    engagement cutoff and the post table exactly the rows indexed at or
    after the post cutoff: every row older than its cutoff is gone, no row
    at or after its cutoff is ever deleted, and each individual batch
    removes at most `deleteBatchSize` rows (the loop stopping exactly when a
    batch removes fewer). -/
theorem C9_retention (cfg : RetentionConfig) (engagementCutoff postCutoff : String)
    (eng : List EngRow) (posts : List PostRow) :
    (cfg.enabled = false →
      runRetentionOnce cfg engagementCutoff postCutoff eng posts = (eng, posts))
    ∧ (cfg.enabled = true → 0 < cfg.deleteBatchSize →
        runRetentionOnce cfg engagementCutoff postCutoff eng posts
          = (eng.filter (fun r => ¬ strLt r.indexedAt engagementCutoff),
             posts.filter (fun r => ¬ strLt r.indexedAt postCutoff)))
    ∧ (∀ (bs : Nat) (rows : List EngRow),
        (deleteOldBatch (·.indexedAt) engagementCutoff bs rows).1 ≤ bs) := by
  refine ⟨?_, ?_, fun bs rows => deleteOldBatch_le _ _ bs rows⟩
  · intro h
    simp [runRetentionOnce, h]
  · intro h hbs
    simp only [runRetentionOnce, h, Bool.not_true, Bool.false_eq_true, if_false]
    rw [retentionLoop_eq_filter _ _ _ hbs, retentionLoop_eq_filter _ _ _ hbs]

/-- **C9 witness.** With retention enabled, batch size 1, cutoff `"2"`: the
    engagement row indexed at `"1"` (older) is deleted, the one at `"3"` and
    the post indexed at `"5"` (newer) survive; with retention disabled
    nothing is deleted. -/
theorem C9_witness :
    runRetentionOnce { enabled := true, deleteBatchSize := 1 } "2" "2"
        [{ uri := "e1", subjectUri := "s", author := "a", type := 2,
           indexedAt := "1", createdAt := "1" },
         { uri := "e2", subjectUri := "s", author := "a", type := 2,
           indexedAt := "3", createdAt := "3" }]
        [{ uri := "p1", author := "a", indexedAt := "5", rootUri := "",
           likes_count := 0, repost_count := 0, comments_count := 0,
           quote_count := 0 }]
      = ([{ uri := "e2", subjectUri := "s", author := "a", type := 2,
            indexedAt := "3", createdAt := "3" }],
         [{ uri := "p1", author := "a", indexedAt := "5", rootUri := "",
            likes_count := 0, repost_count := 0, comments_count := 0,
            quote_count := 0 }])
    ∧ runRetentionOnce { enabled := false, deleteBatchSize := 1 } "2" "2"
        [{ uri := "e1", subjectUri := "s", author := "a", type := 2,
           indexedAt := "1", createdAt := "1" }] []
      = ([{ uri := "e1", subjectUri := "s", author := "a", type := 2,
            indexedAt := "1", createdAt := "1" }], []) := by
  constructor
  · rw [(C9_retention { enabled := true, deleteBatchSize := 1 } "2" "2" _ _).2.1
      rfl (by decide)]
    decide
  · exact (C9_retention { enabled := false, deleteBatchSize := 1 } "2" "2" _ _).1 rfl

theorem isPostUri_didFromAtUri (u : String) (h : isPostUri u = true) :
    ∃ d, didFromAtUri (some u) = some d := by
  unfold isPostUri at h
  split at h
  next rest heq =>
    simp only [Bool.and_eq_true, decide_eq_true_eq] at h
    obtain ⟨hseg, hpre⟩ := h
    have hafter : rest.dropWhile (fun c => c ≠ '/') ≠ [] := by
      have hp := List.isPrefixOf_iff_prefix.mp hpre
      obtain ⟨t, ht⟩ := hp
      intro hnil
      rw [hnil] at ht
      simp at ht
    refine ⟨String.mk (rest.takeWhile (fun c => c ≠ '/')), ?_⟩
    simp only [didFromAtUri, heq]
    rw [if_pos ⟨hseg, hafter⟩]
  next => simp at h

/-- **C3.** A like/repost event is stored iff its subject URI is a real
    post URI and either scoped ingestion is disabled, or the subject's
    author (the DID parsed from the subject URI) is allowlisted — except
    that when the publisher-engagement restriction is enabled, the subject
    author is a configured publisher and the subscriber set is non-empty,
    it is stored only when the acting author is a subscriber — or
    subscriber-activity tracking is enabled and the acting author is a
    subscriber.  Stated against the handler wiring
    (`storeEngagementDecision`), for every flag combination, scope, actor
    and subject. -/
theorem C3_store_engagement_iff (scopedIng track0 restrict0 : Bool)
    (s : IngestionScope) (author : String) (subjectUri : Option String) :
    storeEngagementDecision scopedIng track0 restrict0 s author subjectUri = true
      ↔ ∃ u, subjectUri = some u ∧ isPostUri u = true ∧
          (scopedIng = false
            ∨ (∃ d, didFromAtUri (some u) = some d ∧ d ∈ s.allowlistedAuthorDids ∧
                ((restrict0 = true ∧ d ∈ s.publisherDids ∧ s.subscriberDids ≠ []) →
                  author ∈ s.subscriberDids))
            ∨ (track0 = true ∧ author ∈ s.subscriberDids)) := by
  unfold storeEngagementDecision
  cases subjectUri with
  | none => simp [shouldStoreEngagementFor]
  | some u =>
    by_cases hp : isPostUri u
    · cases scopedIng with
      | false =>
        simp only [Bool.false_and, Bool.false_or, Bool.or_self]
        simp [shouldStoreEngagementFor, hp]
      | true =>
        obtain ⟨d, hd⟩ := isPostUri_didFromAtUri u hp
        simp only [Bool.true_and, Bool.true_or]
        simp only [shouldStoreEngagementFor, hp, if_pos, Bool.not_true,
          Bool.false_eq_true, if_false, hd]
        by_cases hA : d ∈ s.allowlistedAuthorDids <;>
        by_cases hR : restrict0 = true <;>
        by_cases hP : d ∈ s.publisherDids <;>
        by_cases hS : s.subscriberDids = [] <;>
        by_cases hM : author ∈ s.subscriberDids <;>
        by_cases hT : track0 = true <;>
          simp_all [hp]
    · simp [shouldStoreEngagementFor, hp]

/-- **C3 witness.** Concrete instantiation: scoping enabled, restriction
    enabled, subject authored by a publisher that is allowlisted, one
    subscriber, and the actor is that subscriber — the event is stored, and
    the claim's right-hand side holds at the same input. -/
theorem C3_witness :
    storeEngagementDecision true false true
        { allowlistedAuthorDids := ["did:plc:pub"], publisherDids := ["did:plc:pub"],
          subscriberDids := ["did:plc:sub"] }
        "did:plc:sub" (some "at://did:plc:pub/app.bsky.feed.post/1") = true
    ∧ storeEngagementDecision true false true
        { allowlistedAuthorDids := ["did:plc:pub"], publisherDids := ["did:plc:pub"],
          subscriberDids := ["did:plc:sub"] }
        "did:plc:other" (some "at://did:plc:pub/app.bsky.feed.post/1") = false := by
  constructor
  · exact (C3_store_engagement_iff true false true
      { allowlistedAuthorDids := ["did:plc:pub"], publisherDids := ["did:plc:pub"],
        subscriberDids := ["did:plc:sub"] }
      "did:plc:sub" (some "at://did:plc:pub/app.bsky.feed.post/1")).mpr
      ⟨"at://did:plc:pub/app.bsky.feed.post/1", rfl, by decide,
        Or.inr (Or.inl ⟨"did:plc:pub", by decide, by decide, fun _ => by decide⟩)⟩
  · decide

/-- **C4.** A post-create operation is stored iff scoped ingestion is
    disabled, or the author is allowlisted, or the DID of the reply's root
    or parent post author is allowlisted, or subscriber-activity tracking
    is enabled and the author is a subscriber; in particular (second and
    third conjuncts), with allowlist `{A}` and scoping enabled (tracking
    off), a reply by `B` to `A`'s post is stored while an unrelated post by
    `B` is not. -/
theorem C4_store_post_iff :
    (∀ (scopedIng track0 restrict0 : Bool) (s : IngestionScope) (author : String)
        (reply : Option ReplyRef),
      storePostDecision scopedIng track0 restrict0 s author reply = true
        ↔ (scopedIng = false
            ∨ author ∈ s.allowlistedAuthorDids
            ∨ (∃ d, didFromAtUri (reply.bind (·.rootUri)) = some d
                ∧ d ∈ s.allowlistedAuthorDids)
            ∨ (∃ d, didFromAtUri (reply.bind (·.parentUri)) = some d
                ∧ d ∈ s.allowlistedAuthorDids)
            ∨ (track0 = true ∧ author ∈ s.subscriberDids)))
    ∧ storePostDecision true false false
        { allowlistedAuthorDids := ["A"], publisherDids := [], subscriberDids := [] }
        "B" (some { rootUri := some "at://A/app.bsky.feed.post/1",
                    parentUri := some "at://A/app.bsky.feed.post/1" }) = true
    ∧ storePostDecision true false false
        { allowlistedAuthorDids := ["A"], publisherDids := [], subscriberDids := [] }
        "B" none = false := by
  refine ⟨?_, by decide, by decide⟩
  intro scopedIng track0 restrict0 s author reply
  unfold storePostDecision
  cases scopedIng with
  | false =>
    simp only [Bool.false_and, Bool.false_or, Bool.or_self]
    simp [shouldStorePost]
  | true =>
    simp only [Bool.true_and, Bool.true_or]
    simp only [shouldStorePost, Bool.not_true, Bool.false_eq_true, if_false]
    by_cases hauth : author ∈ s.allowlistedAuthorDids
    · simp [hauth]
    · cases hroot : didFromAtUri (reply.bind (·.rootUri)) with
      | some dr =>
        by_cases hr : dr ∈ s.allowlistedAuthorDids
        · simp_all
        · cases hpar : didFromAtUri (reply.bind (·.parentUri)) with
          | some dp =>
            by_cases hq : dp ∈ s.allowlistedAuthorDids <;>
            by_cases hT : track0 = true <;>
            by_cases hM : author ∈ s.subscriberDids <;>
              simp_all
          | none =>
            by_cases hT : track0 = true <;>
            by_cases hM : author ∈ s.subscriberDids <;>
              simp_all
      | none =>
        cases hpar : didFromAtUri (reply.bind (·.parentUri)) with
        | some dp =>
          by_cases hq : dp ∈ s.allowlistedAuthorDids <;>
          by_cases hT : track0 = true <;>
          by_cases hM : author ∈ s.subscriberDids <;>
            simp_all
        | none =>
          by_cases hT : track0 = true <;>
          by_cases hM : author ∈ s.subscriberDids <;>
            simp_all

theorem betterRow_mem (a b : ExportRow) : betterRow a b = a ∨ betterRow a b = b := by
  unfold betterRow
  split_ifs <;> simp

theorem foldl_bestRowStep_mem :
    ∀ (l : List ExportRow) (acc : Option ExportRow) (m : ExportRow),
      l.foldl bestRowStep acc = some m → acc = some m ∨ m ∈ l := by
  intro l
  induction l with
  | nil =>
    intro acc m h
    exact Or.inl h
  | cons r t ih =>
    intro acc m h
    simp only [List.foldl_cons] at h
    rcases ih (bestRowStep acc r) m h with h' | h'
    · cases acc with
      | none =>
        simp only [bestRowStep, Option.some.injEq] at h'
        right
        rw [← h']
        exact List.mem_cons_self r t
      | some b =>
        simp only [bestRowStep, Option.some.injEq] at h'
        rcases betterRow_mem b r with hb | hb
        · left
          rw [← h', hb]
        · right
          rw [← h', hb]
          exact List.mem_cons_self r t
    · exact Or.inr (List.mem_cons_of_mem r h')

theorem bestRowFor_mem (l : List ExportRow) (m : ExportRow)
    (h : bestRowFor l = some m) : m ∈ l := by
  rcases foldl_bestRowStep_mem l none m h with h' | h'
  · exact absurd h' (by simp)
  · exact h'

theorem bestRowFor_eventUri (rows : List ExportRow) (u : String) (m : ExportRow)
    (h : bestRowFor (rows.filter (fun r => r.event_uri = u)) = some m) :
    m.event_uri = u := by
  have hm := bestRowFor_mem _ _ h
  have := List.of_mem_filter hm
  simpa using this

theorem dedupe_filter_not_mem (rows : List ExportRow) (u : String) :
    ∀ (us : List String), u ∉ us →
      (us.filterMap (fun v => bestRowFor (rows.filter (fun r => r.event_uri = v)))).filter
          (fun r => r.event_uri = u) = [] := by
  intro us
  induction us with
  | nil => intro _; rfl
  | cons v vs ih =>
    intro hu
    have hvu : v ≠ u := fun h => hu (h ▸ List.mem_cons_self v vs)
    have hvs : u ∉ vs := fun h => hu (List.mem_cons_of_mem v h)
    cases hv : bestRowFor (rows.filter (fun r => r.event_uri = v)) with
    | none => simpa [List.filterMap_cons, hv] using ih hvs
    | some m =>
      have hm : m.event_uri = v := bestRowFor_eventUri rows v m hv
      simp only [List.filterMap_cons, hv]
      rw [List.filter_cons_of_neg (by simp [hm, hvu])]
      exact ih hvs

theorem dedupe_filter_mem (rows : List ExportRow) (u : String) :
    ∀ (us : List String), us.Nodup → u ∈ us →
      (us.filterMap (fun v => bestRowFor (rows.filter (fun r => r.event_uri = v)))).filter
          (fun r => r.event_uri = u)
        = (bestRowFor (rows.filter (fun r => r.event_uri = u))).toList := by
  intro us
  induction us with
  | nil => intro _ h; exact absurd h (List.not_mem_nil u)
  | cons v vs ih =>
    intro hnd hu
    rcases List.mem_cons.mp hu with rfl | hu'
    · have hvs : u ∉ vs := (List.nodup_cons.mp hnd).1
      cases hv : bestRowFor (rows.filter (fun r => r.event_uri = u)) with
      | none =>
        simpa [List.filterMap_cons, hv] using dedupe_filter_not_mem rows u vs hvs
      | some m =>
        have hm : m.event_uri = u := bestRowFor_eventUri rows u m hv
        simp only [List.filterMap_cons, hv]
        rw [List.filter_cons_of_pos (by simp [hm])]
        rw [dedupe_filter_not_mem rows u vs hvs]
        simp
    · have hvu : v ≠ u := by
        rintro rfl
        exact (List.nodup_cons.mp hnd).1 hu'
      have hnd' : vs.Nodup := (List.nodup_cons.mp hnd).2
      cases hv : bestRowFor (rows.filter (fun r => r.event_uri = v)) with
      | none => simpa [List.filterMap_cons, hv] using ih hnd' hu'
      | some m =>
        have hm : m.event_uri = v := bestRowFor_eventUri rows v m hv
        simp only [List.filterMap_cons, hv]
        rw [List.filter_cons_of_neg (by simp [hm, hvu])]
        exact ih hnd' hu'

theorem betterRow_not_older (a b : ExportRow) :
    ¬ strLt (betterRow a b).created_at a.created_at
    ∧ ¬ strLt (betterRow a b).created_at b.created_at := by
  unfold betterRow strLt
  split_ifs with h1 h2 h3
  · exact ⟨fun h => lt_asymm h1 h, fun h => lt_irrefl _ h⟩
  · exact ⟨fun h => lt_irrefl _ h, h1⟩
  · exact ⟨h2, fun h => lt_irrefl _ h⟩
  · exact ⟨fun h => lt_irrefl _ h, h1⟩

theorem betterRow_rank (a b : ExportRow) (hc : a.created_at = b.created_at) :
    typeRank a.type ≤ typeRank (betterRow a b).type
    ∧ typeRank b.type ≤ typeRank (betterRow a b).type := by
  unfold betterRow
  have hlt : ¬ strLt a.created_at b.created_at := by
    rw [hc]; exact fun h => lt_irrefl _ h
  have hlt' : ¬ strLt b.created_at a.created_at := by
    rw [hc]; exact fun h => lt_irrefl _ h
  rw [if_neg hlt, if_neg hlt']
  by_cases hr : typeRank a.type < typeRank b.type
  · rw [if_pos hr]
    exact ⟨Nat.le_of_lt hr, Nat.le_refl _⟩
  · rw [if_neg hr]
    exact ⟨Nat.le_refl _, Nat.le_of_not_lt hr⟩

/-- **C5.** When exactly two in-window rows share one `event_uri` but carry
    different classifications (types), the deduplication step emits exactly
    one output row for that `event_uri`: one of the two rows, never older
    than either (maximal `created_at`), and of maximal type-rank among rows
    tying on `created_at` — under the fixed rank order like(1) < repost(2) <
    comment(3) < quote(4), so the output is deterministic. -/
theorem C5_dedupe (rows : List ExportRow) (u : String) (r1 r2 : ExportRow)
    (hfilter : rows.filter (fun r => r.event_uri = u) = [r1, r2])
    (_hdiff : r1.type ≠ r2.type) :
    ∃ m, (dedupeByEventUri rows).filter (fun r => r.event_uri = u) = [m]
      ∧ (m = r1 ∨ m = r2)
      ∧ (¬ strLt m.created_at r1.created_at ∧ ¬ strLt m.created_at r2.created_at)
      ∧ (r1.created_at = r2.created_at →
          typeRank r1.type ≤ typeRank m.type ∧ typeRank r2.type ≤ typeRank m.type) := by
  have hr1 : r1 ∈ rows.filter (fun r => r.event_uri = u) := by
    rw [hfilter]; exact List.mem_cons_self _ _
  have hr1u : r1.event_uri = u := by simpa using List.of_mem_filter hr1
  have humem : u ∈ (rows.map (·.event_uri)).dedup := by
    rw [List.mem_dedup]
    exact List.mem_map.mpr ⟨r1, List.mem_of_mem_filter hr1, hr1u⟩
  have hbest : bestRowFor (rows.filter (fun r => r.event_uri = u))
      = some (betterRow r1 r2) := by
    rw [hfilter]; rfl
  refine ⟨betterRow r1 r2, ?_, betterRow_mem r1 r2, betterRow_not_older r1 r2,
    fun hc => ?_⟩
  · unfold dedupeByEventUri
    rw [dedupe_filter_mem rows u _ (List.nodup_dedup _) humem, hbest]
    rfl
  · exact betterRow_rank r1 r2 hc

/-- **C5 witness.** Two rows sharing `event_uri = "e"` with types comment
    vs like: the comment row has the later `created_at` and is the single
    output row. -/
theorem C5_witness :
    ∃ m, (dedupeByEventUri
        [{ type := "like", event_uri := "e", subject_uri := "s", author_did := "a",
           created_at := "1" },
         { type := "comment", event_uri := "e", subject_uri := "s2", author_did := "b",
           created_at := "2" }]).filter (fun r => r.event_uri = "e") = [m]
      ∧ (m = { type := "like", event_uri := "e", subject_uri := "s", author_did := "a",
               created_at := "1" }
          ∨ m = { type := "comment", event_uri := "e", subject_uri := "s2",
                  author_did := "b", created_at := "2" })
      ∧ (¬ strLt m.created_at "1" ∧ ¬ strLt m.created_at "2")
      ∧ (("1" : String) = "2" →
          typeRank "like" ≤ typeRank m.type ∧ typeRank "comment" ≤ typeRank m.type) :=
  C5_dedupe _ "e" _ _ (by decide) (by decide)

theorem issued_cursor_sig (hash : String → String) (filters : EngagementFilters)
    (cursor : Option EngagementCursor) (queryRows : List ExportRow)
    (events : List ExportRow) (nc : EngagementCursor)
    (h : handleEngagementExport hash filters cursor queryRows
        = ExportOutcome.page events (some nc)) :
    nc.filter_sig = buildFilterSignature hash filters := by
  unfold handleEngagementExport at h
  have hpage : ∀ (rows : List ExportRow),
      handleEngagementExport.exportPage (buildFilterSignature hash filters)
          filters.limit rows = ExportOutcome.page events (some nc) →
      nc.filter_sig = buildFilterSignature hash filters := by
    intro rows hp
    unfold handleEngagementExport.exportPage at hp
    by_cases hl : rows.length > filters.limit
    · simp only [hl, if_pos] at hp
      cases hg : (rows.take filters.limit).getLast? with
      | some last =>
        rw [hg] at hp
        simp only [ExportOutcome.page.injEq, Option.some.injEq] at hp
        rw [← hp.2]
      | none =>
        rw [hg] at hp
        simp at hp
    · simp only [hl, if_neg, not_false_iff] at hp
      simp at hp
  cases cursor with
  | none => exact hpage queryRows h
  | some c =>
    have h' : (if c.filter_sig ≠ buildFilterSignature hash filters then
        ExportOutcome.httpError 400 "cursor does not match request filters"
      else handleEngagementExport.exportPage (buildFilterSignature hash filters)
        filters.limit queryRows) = ExportOutcome.page events (some nc) := h
    by_cases hsig : c.filter_sig ≠ buildFilterSignature hash filters
    · rw [if_pos hsig] at h'
      exact absurd h' (by simp)
    · rw [if_neg hsig] at h'
      exact hpage queryRows h' 

/-- **C6.** An export request carrying a cursor whose embedded filter
    signature differs from the signature of the current request's complete
    filter set is rejected with HTTP 400 and the descriptive message
    `cursor does not match request filters`, producing no result page; and
    a `next_cursor` issued by a request with filter set `F1` always embeds
    `F1`'s signature, so replaying it against a request whose filter set
    `F2` has a different signature is always rejected the same way. -/
theorem C6_cursor_binding :
    (∀ (hash : String → String) (filters : EngagementFilters)
        (c : EngagementCursor) (queryRows : List ExportRow),
      c.filter_sig ≠ buildFilterSignature hash filters →
        handleEngagementExport hash filters (some c) queryRows
          = ExportOutcome.httpError 400 "cursor does not match request filters")
    ∧ (∀ (hash : String → String) (f1 f2 : EngagementFilters)
        (c1 : Option EngagementCursor) (qr1 qr2 events : List ExportRow)
        (nc : EngagementCursor),
      handleEngagementExport hash f1 c1 qr1 = ExportOutcome.page events (some nc) →
      buildFilterSignature hash f1 ≠ buildFilterSignature hash f2 →
        handleEngagementExport hash f2 (some nc) qr2
          = ExportOutcome.httpError 400 "cursor does not match request filters") := by
  constructor
  · intro hash filters c queryRows hne
    show (if c.filter_sig ≠ buildFilterSignature hash filters then
        ExportOutcome.httpError 400 "cursor does not match request filters"
      else handleEngagementExport.exportPage (buildFilterSignature hash filters)
        filters.limit queryRows)
      = ExportOutcome.httpError 400 "cursor does not match request filters"
    rw [if_pos hne]
  · intro hash f1 f2 c1 qr1 qr2 events nc hissued hne
    have hsig := issued_cursor_sig hash f1 c1 qr1 events nc hissued
    show (if nc.filter_sig ≠ buildFilterSignature hash f2 then
        ExportOutcome.httpError 400 "cursor does not match request filters"
      else handleEngagementExport.exportPage (buildFilterSignature hash f2) f2.limit qr2)
      = ExportOutcome.httpError 400 "cursor does not match request filters"
    rw [if_pos (by rw [hsig]; exact hne)]

set_option maxRecDepth 10000 in
/-- **C6 witness.** With the digest abstracted as the identity function,
    a cursor issued under `scope = "union"` filters (signature = the
    normalized JSON) is rejected when replayed with `scope = "publisher"`
    filters; three rows and `limit = 2` force a `next_cursor` to be
    issued. -/
theorem C6_witness :
    handleEngagementExport (fun s => s)
        { since := "2024-01-01T00:00:00.000Z", untilTs := "2024-01-02T00:00:00.000Z",
          scope := "publisher", limit := 2, types := ["like"], subscriberDid := none,
          includeOtherSubscriberActivity := false }
        (some { created_at := "2024-01-01T10:00:00.000Z",
                event_uri := "at://a/app.bsky.feed.like/2",
                filter_sig := normalizedFilterJson
                  { since := "2024-01-01T00:00:00.000Z",
                    untilTs := "2024-01-02T00:00:00.000Z",
                    scope := "union", limit := 2, types := ["like"],
                    subscriberDid := none,
                    includeOtherSubscriberActivity := false } })
        [] = ExportOutcome.httpError 400 "cursor does not match request filters"
    ∧ handleEngagementExport (fun s => s)
        { since := "2024-01-01T00:00:00.000Z", untilTs := "2024-01-02T00:00:00.000Z",
          scope := "union", limit := 2, types := ["like"], subscriberDid := none,
          includeOtherSubscriberActivity := false }
        none
        [{ type := "like", event_uri := "at://a/app.bsky.feed.like/3",
           subject_uri := "s", author_did := "x",
           created_at := "2024-01-01T12:00:00.000Z" },
         { type := "like", event_uri := "at://a/app.bsky.feed.like/2",
           subject_uri := "s", author_did := "y",
           created_at := "2024-01-01T10:00:00.000Z" },
         { type := "like", event_uri := "at://a/app.bsky.feed.like/1",
           subject_uri := "s", author_did := "z",
           created_at := "2024-01-01T08:00:00.000Z" }]
      = ExportOutcome.page
          [{ type := "like", event_uri := "at://a/app.bsky.feed.like/3",
             subject_uri := "s", author_did := "x",
             created_at := "2024-01-01T12:00:00.000Z" },
           { type := "like", event_uri := "at://a/app.bsky.feed.like/2",
             subject_uri := "s", author_did := "y",
             created_at := "2024-01-01T10:00:00.000Z" }]
          (some { created_at := "2024-01-01T10:00:00.000Z",
                  event_uri := "at://a/app.bsky.feed.like/2",
                  filter_sig := normalizedFilterJson
                    { since := "2024-01-01T00:00:00.000Z",
                      untilTs := "2024-01-02T00:00:00.000Z",
                      scope := "union", limit := 2, types := ["like"],
                      subscriberDid := none,
                      includeOtherSubscriberActivity := false } }) := by
  constructor
  · exact C6_cursor_binding.1 (fun s => s) _ _ [] (by decide)
  · decide

theorem groupByCount_of_nodup (cnt : String → Nat) (l : List String) (h : l.Nodup) :
    groupByCount cnt l
      = l.filterMap (fun u => if cnt u = 0 then none else some (u, cnt u)) := by
  unfold groupByCount
  rw [List.Nodup.dedup h]

theorem execInChunks_groupByCount (sz : Nat) (hsz : 0 < sz) (cnt : String → Nat) :
    ∀ (items : List String), items.Nodup →
      execInChunks sz items (groupByCount cnt)
        = items.filterMap (fun u => if cnt u = 0 then none else some (u, cnt u)) := by
  intro items
  have H : ∀ (n : Nat) (items : List String), items.length = n → items.Nodup →
      execInChunks sz items (groupByCount cnt)
        = items.filterMap (fun u => if cnt u = 0 then none else some (u, cnt u)) := by
    intro n
    induction n using Nat.strong_induction_on with
    | _ n ih =>
      intro items hlen hnd
      unfold execInChunks
      by_cases hnil : items = []
      · simp [hnil]
      · rw [if_neg (by simp [hnil]; omega)]
        have htake : (items.take sz).Nodup :=
          hnd.sublist (List.take_sublist sz items)
        have hdrop : (items.drop sz).Nodup :=
          hnd.sublist (List.drop_sublist sz items)
        have hlt : (items.drop sz).length < n := by
          have : 0 < items.length := List.length_pos.mpr hnil
          simp only [List.length_drop]
          omega
        rw [groupByCount_of_nodup cnt _ htake, ih _ (by omega) _ rfl hdrop,
            ← List.filterMap_append, List.take_append_drop]
  exact H items.length items rfl

theorem applyCaseUpdate_append (b1 b2 : List String)
    (lm rm cm : List (String × Nat)) (posts : List PostRow) :
    applyCaseUpdate b2 lm rm cm (applyCaseUpdate b1 lm rm cm posts)
      = applyCaseUpdate (b1 ++ b2) lm rm cm posts := by
  unfold applyCaseUpdate
  rw [List.map_map]
  congr 1
  funext p
  by_cases h1 : p.uri ∈ b1 <;> by_cases h2 : p.uri ∈ b2 <;>
    simp [Function.comp, h1, h2]

theorem updateInBatches_eq (bs : Nat) (hbs : 0 < bs)
    (lm rm cm : List (String × Nat)) :
    ∀ (uris : List String) (posts : List PostRow),
      updateInBatches bs uris lm rm cm posts = applyCaseUpdate uris lm rm cm posts := by
  have H : ∀ (n : Nat) (uris : List String), uris.length = n → ∀ (posts : List PostRow),
      updateInBatches bs uris lm rm cm posts = applyCaseUpdate uris lm rm cm posts := by
    intro n
    induction n using Nat.strong_induction_on with
    | _ n ih =>
      intro uris hlen posts
      unfold updateInBatches
      by_cases hnil : uris = []
      · subst hnil
        simp [applyCaseUpdate]
      · rw [if_neg (by simp [hnil]; omega)]
        have hlt : (uris.drop bs).length < n := by
          have : 0 < uris.length := List.length_pos.mpr hnil
          simp only [List.length_drop]
          omega
        rw [ih _ (by omega) _ rfl, applyCaseUpdate_append, List.take_append_drop]
  intro uris posts
  exact H uris.length uris rfl posts

theorem map_uri_filter_nodup (l : List PostRow) (h : (l.map (·.uri)).Nodup)
    (q : PostRow → Bool) : ((l.filter q).map (·.uri)).Nodup :=
  h.sublist ((List.filter_sublist l).map (·.uri))

theorem chunked_pair_eq (sz : Nat) (hsz : 0 < sz) (cntO cntP : String → Nat)
    (other pub : List String) (hO : other.Nodup) (hP : pub.Nodup)
    (c1 c2 : Prop) [Decidable c1] [Decidable c2] :
    ((if c1 then execInChunks sz other (groupByCount cntO) else []) ++
      (if c2 then execInChunks sz pub (groupByCount cntP) else []))
      = ((if c1 then groupByCount cntO other else []) ++
          (if c2 then groupByCount cntP pub else [])) := by
  congr 1 <;> split <;>
    first
    | rw [execInChunks_groupByCount sz hsz _ _ hO, groupByCount_of_nodup _ _ hO]
    | rw [execInChunks_groupByCount sz hsz _ _ hP, groupByCount_of_nodup _ _ hP]
    | rfl

theorem updateEngagement_eq_unchunked (sz bs : Nat) (hsz : 0 < sz) (hbs : 0 < bs)
    (newsbotDids : List String) (timeLimit : String) (db : EngagementDb)
    (hnodup : (db.posts.map (·.uri)).Nodup) :
    updateEngagement sz bs newsbotDids timeLimit db
      = updateEngagementUnchunked newsbotDids timeLimit db := by
  simp only [updateEngagement, updateEngagementUnchunked]
  by_cases hf : db.followsList = []
  · rw [if_pos hf, if_pos hf]
  · rw [if_neg hf, if_neg hf]
    have hrec := map_uri_filter_nodup db.posts hnodup
      (fun p => decide (¬ strLt p.indexedAt timeLimit ∧
        p.author ∈ (db.followsList ++ newsbotDids).dedup))
    have hother := map_uri_filter_nodup _ hrec
      (fun p => decide (p.author ∉ newsbotDids))
    have hpub := map_uri_filter_nodup _ hrec
      (fun p => decide (p.author ∈ newsbotDids))
    split
    · rfl
    · rw [updateInBatches_eq bs hbs,
          chunked_pair_eq sz hsz _ _ _ _ hother hpub,
          chunked_pair_eq sz hsz _ _ _ _ hother hpub,
          chunked_pair_eq sz hsz _ _ _ _ hother hpub]

/-- **C7.** For every database state whose post URIs are distinct (the
    `post.uri` primary key) and any positive chunk sizes, running
    `updateEngagement` with chunked membership-filtered count queries and a
    batched final UPDATE produces exactly the same stored state as the
    single-query, single-statement unchunked reference run — in particular
    the production sizes 50000/5000 do, for URI lists of any length,
    including lists longer than one chunk. -/
theorem C7_chunked_update_equivalence (sz bs : Nat) (hsz : 0 < sz) (hbs : 0 < bs)
    (newsbotDids : List String) (timeLimit : String) (db : EngagementDb)
    (hnodup : (db.posts.map (·.uri)).Nodup) :
    updateEngagement sz bs newsbotDids timeLimit db
      = updateEngagementUnchunked newsbotDids timeLimit db
    ∧ updateEngagementProd newsbotDids timeLimit db
      = updateEngagementUnchunked newsbotDids timeLimit db :=
  ⟨updateEngagement_eq_unchunked sz bs hsz hbs newsbotDids timeLimit db hnodup,
   updateEngagement_eq_unchunked IN_CLAUSE_CHUNK_SIZE UPDATE_BATCH_SIZE
     (by decide) (by decide) newsbotDids timeLimit db hnodup⟩

/-- **C7 witness.** Chunk size 2 and batch size 1 over a three-post
    candidate list (longer than one chunk) produce the same result as the
    unchunked reference run. -/
theorem C7_witness :
    updateEngagement 2 1 ["n"] "1"
        { posts := [{ uri := "at://f/app.bsky.feed.post/1", author := "f",
                      indexedAt := "2", rootUri := "", likes_count := 4,
                      repost_count := 4, comments_count := 4, quote_count := 0 },
                    { uri := "at://f/app.bsky.feed.post/2", author := "f",
                      indexedAt := "2", rootUri := "", likes_count := 4,
                      repost_count := 4, comments_count := 4, quote_count := 0 },
                    { uri := "at://n/app.bsky.feed.post/3", author := "n",
                      indexedAt := "2", rootUri := "", likes_count := 4,
                      repost_count := 4, comments_count := 4, quote_count := 0 }],
          engagement := [{ uri := "at://x/app.bsky.feed.like/1",
                           subjectUri := "at://f/app.bsky.feed.post/1", author := "x",
                           type := 2, indexedAt := "2", createdAt := "2" }],
          subscriberDids := ["s"], followsList := ["f"] }
      = updateEngagementUnchunked ["n"] "1"
        { posts := [{ uri := "at://f/app.bsky.feed.post/1", author := "f",
                      indexedAt := "2", rootUri := "", likes_count := 4,
                      repost_count := 4, comments_count := 4, quote_count := 0 },
                    { uri := "at://f/app.bsky.feed.post/2", author := "f",
                      indexedAt := "2", rootUri := "", likes_count := 4,
                      repost_count := 4, comments_count := 4, quote_count := 0 },
                    { uri := "at://n/app.bsky.feed.post/3", author := "n",
                      indexedAt := "2", rootUri := "", likes_count := 4,
                      repost_count := 4, comments_count := 4, quote_count := 0 }],
          engagement := [{ uri := "at://x/app.bsky.feed.like/1",
                           subjectUri := "at://f/app.bsky.feed.post/1", author := "x",
                           type := 2, indexedAt := "2", createdAt := "2" }],
          subscriberDids := ["s"], followsList := ["f"] } :=
  (C7_chunked_update_equivalence 2 1 (by decide) (by decide) ["n"] "1" _ (by decide)).1

theorem mapGetD_eq (l : List (String × Nat)) (f : String → Nat)
    (hval : ∀ p ∈ l, p.2 = f p.1) (u : String) :
    mapGetD l u = if u ∈ l.map Prod.fst then f u else 0 := by
  unfold mapGetD
  cases hfind : l.reverse.find? (fun p => p.1 = u) with
  | some p =>
    have hp := List.find?_some hfind
    have hmem : p ∈ l.reverse := List.mem_of_find?_eq_some hfind
    have hpu : p.1 = u := by simpa using hp
    have hpl : p ∈ l := List.mem_reverse.mp hmem
    show p.2 = if u ∈ l.map Prod.fst then f u else 0
    rw [if_pos (List.mem_map.mpr ⟨p, hpl, hpu⟩), hval p hpl, hpu]
  | none =>
    have hnone := List.find?_eq_none.mp hfind
    show (0 : Nat) = if u ∈ l.map Prod.fst then f u else 0
    rw [if_neg ?hk]
    case hk =>
      intro hmem
      obtain ⟨p, hpl, hpu⟩ := List.mem_map.mp hmem
      exact absurd (by simpa using hpu)
        (by simpa using hnone p (List.mem_reverse.mpr hpl))

theorem groupByCount_mem_val (cnt : String → Nat) (l : List String) (p : String × Nat)
    (hp : p ∈ groupByCount cnt l) : p.1 ∈ l ∧ p.2 = cnt p.1 := by
  unfold groupByCount at hp
  obtain ⟨a, ha, hg⟩ := List.mem_filterMap.mp hp
  by_cases h0 : cnt a = 0
  · simp [h0] at hg
  · rw [if_neg h0] at hg
    have hpa : p = (a, cnt a) := by
      injection hg with h
      exact h.symm
    subst hpa
    exact ⟨List.mem_dedup.mp ha, rfl⟩

theorem groupByCount_key_mem (cnt : String → Nat) (l : List String) (u : String)
    (hu : u ∈ l) (h0 : cnt u ≠ 0) : u ∈ (groupByCount cnt l).map Prod.fst := by
  unfold groupByCount
  refine List.mem_map.mpr ⟨(u, cnt u), ?_, rfl⟩
  exact List.mem_filterMap.mpr ⟨u, List.mem_dedup.mpr hu, by rw [if_neg h0]⟩

theorem mapGetD_combined (cntO cntP : String → Nat) (other pub : List String)
    (c1 c2 : Prop) [Decidable c1] [Decidable c2]
    (hc1 : other ≠ [] → c1)
    (hc2zero : ¬ c2 → ∀ u ∈ pub, cntP u = 0)
    (hdisj : ∀ u, u ∈ other → u ∉ pub) (u : String) :
    (u ∈ other → mapGetD ((if c1 then groupByCount cntO other else []) ++
        (if c2 then groupByCount cntP pub else [])) u = cntO u)
    ∧ (u ∈ pub → mapGetD ((if c1 then groupByCount cntO other else []) ++
        (if c2 then groupByCount cntP pub else [])) u = cntP u) := by
  set L := (if c1 then groupByCount cntO other else []) ++
    (if c2 then groupByCount cntP pub else []) with hL
  have hval : ∀ p ∈ L, p.2 = (fun v => if v ∈ pub then cntP v else cntO v) p.1 := by
    intro p hp
    rw [hL] at hp
    rcases List.mem_append.mp hp with hpO | hpP
    · split at hpO
      · obtain ⟨h1, h2⟩ := groupByCount_mem_val cntO other p hpO
        simp only [hdisj p.1 h1, if_neg, not_false_iff]
        exact h2
      · exact absurd hpO (List.not_mem_nil p)
    · split at hpP
      · obtain ⟨h1, h2⟩ := groupByCount_mem_val cntP pub p hpP
        simp only [h1, if_pos]
        exact h2
      · exact absurd hpP (List.not_mem_nil p)
  have hget := mapGetD_eq L (fun v => if v ∈ pub then cntP v else cntO v) hval u
  constructor
  · intro hu
    have hnp : u ∉ pub := hdisj u hu
    rw [hget]
    by_cases hk : u ∈ L.map Prod.fst
    · rw [if_pos hk]
      simp [hnp]
    · rw [if_neg hk]
      by_cases h0 : cntO u = 0
      · omega
      · exfalso
        apply hk
        have hc1' : c1 := hc1 (by rintro rfl; exact absurd hu (List.not_mem_nil u))
        rw [hL, List.map_append]
        refine List.mem_append_left _ ?_
        rw [if_pos hc1']
        exact groupByCount_key_mem cntO other u hu h0
  · intro hu
    rw [hget]
    by_cases hk : u ∈ L.map Prod.fst
    · rw [if_pos hk]
      simp [hu]
    · rw [if_neg hk]
      by_cases hc2' : c2
      · by_cases h0 : cntP u = 0
        · omega
        · exfalso
          apply hk
          rw [hL, List.map_append]
          refine List.mem_append_right _ ?_
          rw [if_pos hc2']
          exact groupByCount_key_mem cntP pub u hu h0
      · rw [hc2zero hc2' u hu]

theorem likeCnt_subs_nil (eng : List EngRow) (u : String) :
    likeCnt eng (some []) u = 0 := by
  simp [likeCnt, subsOk]

theorem repostCnt_subs_nil (eng : List EngRow) (u : String) :
    repostCnt eng (some []) u = 0 := by
  simp [repostCnt, subsOk]

theorem commentCnt_subs_nil (posts : List PostRow) (u : String) :
    commentCnt posts (some []) u = 0 := by
  simp [commentCnt, subsOk]

theorem map_id_of_mem (l : List α) (f : α → α) (h : ∀ a ∈ l, f a = a) :
    l.map f = l := by
  induction l with
  | nil => rfl
  | cons a t ih =>
    simp only [List.map_cons, h a (List.mem_cons_self a t)]
    rw [ih (fun x hx => h x (List.mem_cons_of_mem a hx))]

/-- **C1 counterexample.** A state refuting the claim that `updateEngagement`
    recomputes *four* counts including quotes: one candidate post (author
    followed, in-window) with stored `quote_count = 5` and *zero* quote
    (type-3) engagement rows.  After the run the stored quote count is still
    5 — not the recomputed value 0 — while the three other counts are
    rewritten to their recomputed values (here 0). -/
theorem C1_quotes_not_recomputed :
    (updateEngagementProd [] "1"
        { posts := [{ uri := "at://f/app.bsky.feed.post/1", author := "f",
                      indexedAt := "2", rootUri := "", likes_count := 9,
                      repost_count := 9, comments_count := 9, quote_count := 5 }],
          engagement := [], subscriberDids := [], followsList := ["f"] }).posts.map
        (·.quote_count) = [5]
    ∧ (([] : List EngRow).filter
        (fun e => e.subjectUri = "at://f/app.bsky.feed.post/1" ∧ e.type = 3)).length = 0
    ∧ (updateEngagementProd [] "1"
        { posts := [{ uri := "at://f/app.bsky.feed.post/1", author := "f",
                      indexedAt := "2", rootUri := "", likes_count := 9,
                      repost_count := 9, comments_count := 9, quote_count := 5 }],
          engagement := [], subscriberDids := [], followsList := ["f"] }).posts.map
        (·.likes_count) = [0] := by
  refine ⟨?_, rfl, ?_⟩ <;>
  · simp only [updateEngagementProd]
    rw [updateEngagement_eq_unchunked _ _ (by decide) (by decide) _ _ _ (by decide)]
    decide

/-- **C1 (amended).** For every database state whose post URIs are distinct
    (the `post.uri` primary key), an aggregation run rewrites, for every
    candidate post (indexed in the rolling window, author followed or a
    newsbot; no-op when the follows list is empty), exactly **three** stored
    counts wholesale from the current rows — likes (type-2 rows on the
    post), reposts (type-1 rows), comments (posts whose `rootUri` references
    it) — counting only subscriber-originated activity on newsbot-authored
    posts; the stored values after the run equal those recomputed counts
    regardless of their prior values, while the stored **quote count is left
    untouched** (no quote recomputation exists), and non-candidate posts are
    unchanged. -/
theorem C1_update_engagement_amended (newsbotDids : List String) (timeLimit : String)
    (db : EngagementDb) (hnodup : (db.posts.map (·.uri)).Nodup) :
    (updateEngagementProd newsbotDids timeLimit db).posts
      = if db.followsList = [] then db.posts
        else db.posts.map (fun p =>
          if ¬ strLt p.indexedAt timeLimit ∧
              p.author ∈ (db.followsList ++ newsbotDids).dedup then
            { p with
                likes_count := likeCnt db.engagement
                  (if p.author ∈ newsbotDids then some db.subscriberDids else none) p.uri
                repost_count := repostCnt db.engagement
                  (if p.author ∈ newsbotDids then some db.subscriberDids else none) p.uri
                comments_count := commentCnt db.posts
                  (if p.author ∈ newsbotDids then some db.subscriberDids else none) p.uri }
          else p) := by
  rw [show updateEngagementProd newsbotDids timeLimit db
      = updateEngagementUnchunked newsbotDids timeLimit db from
    updateEngagement_eq_unchunked _ _ (by decide) (by decide) _ _ _ hnodup]
  simp only [updateEngagementUnchunked]
  by_cases hf : db.followsList = []
  · rw [if_pos hf, if_pos hf]
  · rw [if_neg hf, if_neg hf]
    have hinj := List.inj_on_of_nodup_map hnodup
    have hrec := map_uri_filter_nodup db.posts hnodup
      (fun p => decide (¬ strLt p.indexedAt timeLimit ∧
        p.author ∈ (db.followsList ++ newsbotDids).dedup))
    have hother := map_uri_filter_nodup _ hrec
      (fun p => decide (p.author ∉ newsbotDids))
    have hpub := map_uri_filter_nodup _ hrec
      (fun p => decide (p.author ∈ newsbotDids))
    -- membership characterizations
    have hmemPost : ∀ p ∈ db.posts,
        (p.uri ∈ (db.posts.filter (fun q => ¬ strLt q.indexedAt timeLimit ∧
            q.author ∈ (db.followsList ++ newsbotDids).dedup)).map (·.uri)
          ↔ (¬ strLt p.indexedAt timeLimit ∧
              p.author ∈ (db.followsList ++ newsbotDids).dedup)) := by
      intro p hp
      constructor
      · intro hmem
        obtain ⟨q, hq, hqu⟩ := List.mem_map.mp hmem
        have hq' : q ∈ db.posts := List.mem_of_mem_filter hq
        have : q = p := hinj hq' hp hqu
        subst this
        simpa using List.of_mem_filter hq
      · intro hc
        exact List.mem_map.mpr ⟨p, List.mem_filter.mpr ⟨hp, by simpa using hc⟩, rfl⟩
    have hmemOther : ∀ p ∈ db.posts,
        (p.uri ∈ ((db.posts.filter (fun q => ¬ strLt q.indexedAt timeLimit ∧
              q.author ∈ (db.followsList ++ newsbotDids).dedup)).filter
              (fun q => decide (q.author ∉ newsbotDids))).map (·.uri)
          ↔ ((¬ strLt p.indexedAt timeLimit ∧
              p.author ∈ (db.followsList ++ newsbotDids).dedup) ∧
              p.author ∉ newsbotDids)) := by
      intro p hp
      constructor
      · intro hmem
        obtain ⟨q, hq, hqu⟩ := List.mem_map.mp hmem
        have hq1 := List.mem_of_mem_filter hq
        have hq2 : q ∈ db.posts := List.mem_of_mem_filter hq1
        have : q = p := hinj hq2 hp hqu
        subst this
        exact ⟨by simpa using List.of_mem_filter hq1, by simpa using List.of_mem_filter hq⟩
      · intro ⟨hc, hb⟩
        refine List.mem_map.mpr ⟨p, List.mem_filter.mpr
          ⟨List.mem_filter.mpr ⟨hp, by simpa using hc⟩, by simpa using hb⟩, rfl⟩
    have hmemPub : ∀ p ∈ db.posts,
        (p.uri ∈ ((db.posts.filter (fun q => ¬ strLt q.indexedAt timeLimit ∧
              q.author ∈ (db.followsList ++ newsbotDids).dedup)).filter
              (fun q => decide (q.author ∈ newsbotDids))).map (·.uri)
          ↔ ((¬ strLt p.indexedAt timeLimit ∧
              p.author ∈ (db.followsList ++ newsbotDids).dedup) ∧
              p.author ∈ newsbotDids)) := by
      intro p hp
      constructor
      · intro hmem
        obtain ⟨q, hq, hqu⟩ := List.mem_map.mp hmem
        have hq1 := List.mem_of_mem_filter hq
        have hq2 : q ∈ db.posts := List.mem_of_mem_filter hq1
        have : q = p := hinj hq2 hp hqu
        subst this
        exact ⟨by simpa using List.of_mem_filter hq1, by simpa using List.of_mem_filter hq⟩
      · intro ⟨hc, hb⟩
        refine List.mem_map.mpr ⟨p, List.mem_filter.mpr
          ⟨List.mem_filter.mpr ⟨hp, by simpa using hc⟩, by simpa using hb⟩, rfl⟩
    by_cases hp0 : (db.posts.filter (fun q => ¬ strLt q.indexedAt timeLimit ∧
        q.author ∈ (db.followsList ++ newsbotDids).dedup)).map (·.uri) = []
    · rw [if_pos hp0]
      symm
      apply map_id_of_mem
      intro p hp
      rw [if_neg]
      intro hc
      have := (hmemPost p hp).mpr hc
      rw [hp0] at this
      exact absurd this (List.not_mem_nil _)
    · rw [if_neg hp0]
      show applyCaseUpdate _ _ _ _ db.posts = _
      unfold applyCaseUpdate
      apply List.map_congr_left
      intro p hp
      have hdisj : ∀ u, u ∈ ((db.posts.filter (fun q => ¬ strLt q.indexedAt timeLimit ∧
            q.author ∈ (db.followsList ++ newsbotDids).dedup)).filter
            (fun q => decide (q.author ∉ newsbotDids))).map (·.uri) →
          u ∉ ((db.posts.filter (fun q => ¬ strLt q.indexedAt timeLimit ∧
            q.author ∈ (db.followsList ++ newsbotDids).dedup)).filter
            (fun q => decide (q.author ∈ newsbotDids))).map (·.uri) := by
        intro u h1 h2
        obtain ⟨q, hq, hqu⟩ := List.mem_map.mp h1
        obtain ⟨r, hr, hru⟩ := List.mem_map.mp h2
        have hq2 : q ∈ db.posts := List.mem_of_mem_filter (List.mem_of_mem_filter hq)
        have hr2 : r ∈ db.posts := List.mem_of_mem_filter (List.mem_of_mem_filter hr)
        have : q = r := hinj hq2 hr2 (by rw [hqu, hru])
        subst this
        have h1' : (q.author ∉ newsbotDids) := by simpa using List.of_mem_filter hq
        have h2' : (q.author ∈ newsbotDids) := by simpa using List.of_mem_filter hr
        exact h1' h2'
      by_cases hc : (¬ strLt p.indexedAt timeLimit ∧
          p.author ∈ (db.followsList ++ newsbotDids).dedup)
      · rw [if_pos ((hmemPost p hp).mpr hc), if_pos hc]
        have hlike := mapGetD_combined (likeCnt db.engagement none)
          (likeCnt db.engagement (some db.subscriberDids))
          (((db.posts.filter (fun q => ¬ strLt q.indexedAt timeLimit ∧
            q.author ∈ (db.followsList ++ newsbotDids).dedup)).filter
            (fun q => decide (q.author ∉ newsbotDids))).map (·.uri))
          (((db.posts.filter (fun q => ¬ strLt q.indexedAt timeLimit ∧
            q.author ∈ (db.followsList ++ newsbotDids).dedup)).filter
            (fun q => decide (q.author ∈ newsbotDids))).map (·.uri))
          ((((db.posts.filter (fun q => ¬ strLt q.indexedAt timeLimit ∧
            q.author ∈ (db.followsList ++ newsbotDids).dedup)).filter
            (fun q => decide (q.author ∉ newsbotDids))).map (·.uri)) ≠ [])
          ((((db.posts.filter (fun q => ¬ strLt q.indexedAt timeLimit ∧
            q.author ∈ (db.followsList ++ newsbotDids).dedup)).filter
            (fun q => decide (q.author ∈ newsbotDids))).map (·.uri)) ≠ [] ∧ db.subscriberDids ≠ [])
          (fun h => h)
          (fun hnc2 u hu => by
            by_cases hs : db.subscriberDids = []
            · rw [hs]; exact likeCnt_subs_nil _ _
            · exact absurd ⟨List.ne_nil_of_mem hu, hs⟩ hnc2)
          hdisj p.uri
        have hrep := mapGetD_combined (repostCnt db.engagement none)
          (repostCnt db.engagement (some db.subscriberDids))
          (((db.posts.filter (fun q => ¬ strLt q.indexedAt timeLimit ∧
            q.author ∈ (db.followsList ++ newsbotDids).dedup)).filter
            (fun q => decide (q.author ∉ newsbotDids))).map (·.uri))
          (((db.posts.filter (fun q => ¬ strLt q.indexedAt timeLimit ∧
            q.author ∈ (db.followsList ++ newsbotDids).dedup)).filter
            (fun q => decide (q.author ∈ newsbotDids))).map (·.uri))
          ((((db.posts.filter (fun q => ¬ strLt q.indexedAt timeLimit ∧
            q.author ∈ (db.followsList ++ newsbotDids).dedup)).filter
            (fun q => decide (q.author ∉ newsbotDids))).map (·.uri)) ≠ [])
          ((((db.posts.filter (fun q => ¬ strLt q.indexedAt timeLimit ∧
            q.author ∈ (db.followsList ++ newsbotDids).dedup)).filter
            (fun q => decide (q.author ∈ newsbotDids))).map (·.uri)) ≠ [] ∧ db.subscriberDids ≠ [])
          (fun h => h)
          (fun hnc2 u hu => by
            by_cases hs : db.subscriberDids = []
            · rw [hs]; exact repostCnt_subs_nil _ _
            · exact absurd ⟨List.ne_nil_of_mem hu, hs⟩ hnc2)
          hdisj p.uri
        have hcom := mapGetD_combined (commentCnt db.posts none)
          (commentCnt db.posts (some db.subscriberDids))
          (((db.posts.filter (fun q => ¬ strLt q.indexedAt timeLimit ∧
            q.author ∈ (db.followsList ++ newsbotDids).dedup)).filter
            (fun q => decide (q.author ∉ newsbotDids))).map (·.uri))
          (((db.posts.filter (fun q => ¬ strLt q.indexedAt timeLimit ∧
            q.author ∈ (db.followsList ++ newsbotDids).dedup)).filter
            (fun q => decide (q.author ∈ newsbotDids))).map (·.uri))
          ((((db.posts.filter (fun q => ¬ strLt q.indexedAt timeLimit ∧
            q.author ∈ (db.followsList ++ newsbotDids).dedup)).filter
            (fun q => decide (q.author ∉ newsbotDids))).map (·.uri)) ≠ [])
          ((((db.posts.filter (fun q => ¬ strLt q.indexedAt timeLimit ∧
            q.author ∈ (db.followsList ++ newsbotDids).dedup)).filter
            (fun q => decide (q.author ∈ newsbotDids))).map (·.uri)) ≠ [] ∧ db.subscriberDids ≠ [])
          (fun h => h)
          (fun hnc2 u hu => by
            by_cases hs : db.subscriberDids = []
            · rw [hs]; exact commentCnt_subs_nil _ _
            · exact absurd ⟨List.ne_nil_of_mem hu, hs⟩ hnc2)
          hdisj p.uri
        by_cases hanb : p.author ∈ newsbotDids
        · have hmem := (hmemPub p hp).mpr ⟨hc, hanb⟩
          rw [hlike.2 hmem, hrep.2 hmem, hcom.2 hmem, if_pos hanb]
        · have hmem := (hmemOther p hp).mpr ⟨hc, hanb⟩
          rw [hlike.1 hmem, hrep.1 hmem, hcom.1 hmem, if_neg hanb]
      · rw [if_neg (fun hmem => hc ((hmemPost p hp).mp hmem)), if_neg hc]

/-- **C1 witness.** A candidate post with stale stored counts and 3 like
    rows, 0 repost rows, 1 comment row: the run rewrites likes to 3,
    reposts to 0, comments to 1, and leaves `quote_count` at its prior 7. -/
theorem C1_amended_witness :
    (updateEngagementProd [] "1"
        { posts := [{ uri := "at://f/app.bsky.feed.post/1", author := "f",
                      indexedAt := "2", rootUri := "", likes_count := 9,
                      repost_count := 9, comments_count := 9, quote_count := 7 },
                    { uri := "at://z/app.bsky.feed.post/c", author := "z",
                      indexedAt := "2", rootUri := "at://f/app.bsky.feed.post/1",
                      likes_count := 0, repost_count := 0, comments_count := 0,
                      quote_count := 0 }],
          engagement := [{ uri := "at://x/app.bsky.feed.like/1", subjectUri := "at://f/app.bsky.feed.post/1",
                           author := "x", type := 2, indexedAt := "2", createdAt := "2" },
                         { uri := "at://y/app.bsky.feed.like/2", subjectUri := "at://f/app.bsky.feed.post/1",
                           author := "y", type := 2, indexedAt := "2", createdAt := "2" },
                         { uri := "at://z/app.bsky.feed.like/3", subjectUri := "at://f/app.bsky.feed.post/1",
                           author := "z", type := 2, indexedAt := "2", createdAt := "2" }],
          subscriberDids := [], followsList := ["f"] }).posts
      = [{ uri := "at://f/app.bsky.feed.post/1", author := "f",
           indexedAt := "2", rootUri := "", likes_count := 3,
           repost_count := 0, comments_count := 1, quote_count := 7 },
         { uri := "at://z/app.bsky.feed.post/c", author := "z",
           indexedAt := "2", rootUri := "at://f/app.bsky.feed.post/1",
           likes_count := 0, repost_count := 0, comments_count := 0,
           quote_count := 0 }] := by
  rw [C1_update_engagement_amended [] "1" _ (by decide)]
  decide

end NewsFlows
